import Mathlib

/-!
Verification of the streaming speech-segmentation and session-buffering engine
of `ovms/scripts/speech-to-text/whisper.py`.

Shallow embedding conventions:
* Raw PCM bytes are `List Nat` (byte values); int16 decoding mirrors
  `np.frombuffer(dtype=np.int16)` (little-endian, fails unless the length is a
  multiple of 2).
* Seconds are `ℚ`.  The external collaborators (the Whisper engine
  `pipe.generate`, the per-frame WebRTC VAD classifier `vad.is_speech`, and the
  librosa resampler) are parameters of the model: `engine`, `classify`; the
  resampler is modelled as the identity, i.e. the embedding covers the
  16 kHz path (resampling is an external pure primitive per the code, and no
  modelled quantity depends on resampled sample values).
* The websocket streaming service always runs with `is_int16=True` and
  `use_vad=True` (set unconditionally in `execute`); the embedding models that
  path.
-/

namespace Whisper

/-- `TARGET_SAMPLE_RATE = 16000`. -/
def TARGET_SAMPLE_RATE : ℕ := 16000

/-- `FRAME_DURATION_MS = 30`. -/
def FRAME_DURATION_MS : ℕ := 30

/-- `VAD_FRAME_SIZE = int(16000 * 30 / 1000) = 480`. -/
def VAD_FRAME_SIZE : ℕ := TARGET_SAMPLE_RATE * FRAME_DURATION_MS / 1000

/-- `HALLUCINATE_THRESHOLD = 100`. -/
def HALLUCINATE_THRESHOLD : ℚ := 100

/-- `TARGET_BUFFER_LENGTH = 3.0`. -/
def TARGET_BUFFER_LENGTH : ℚ := 3

/-- Interpret a value in `[0, 65536)` as a signed 16-bit integer. -/
def toInt16 (v : ℕ) : ℤ :=
  if v % 65536 < 32768 then (v % 65536 : ℤ) else (v % 65536 : ℤ) - 65536

/-- `np.frombuffer(b, dtype=np.int16)`: little-endian 16-bit decode; numpy
raises `ValueError` ("buffer size must be a multiple of element size") when the
byte length is odd, modelled as `none`. -/
def decode_int16 : List ℕ → Option (List ℤ)
  | [] => some []
  | lo :: hi :: rest => (decode_int16 rest).map (fun s => toInt16 (lo + 256 * hi) :: s)
  | [_] => none

/-- `np.abs` on an int16 array: two's-complement absolute value, which wraps on
`-32768`. -/
def absInt16 (s : ℤ) : ℤ :=
  if s = -32768 then -32768 else |s|

/-- `EnhancedVadProcessor._is_audio_loud_enough`:
`np.mean(np.abs(audio_np)) > self.hallucinate_threshold`.
`np.mean` of an empty array is NaN and `NaN > t` is `False`. -/
def is_audio_loud_enough (samples : List ℤ) (threshold : ℚ) : Bool :=
  samples.length != 0 &&
    decide (threshold * samples.length < ((samples.map absInt16).sum : ℚ))

/-- `EnhancedVadProcessor._transfer_audiodata_to_float`:
`frame_data.astype(np.float32) / 32768.0` (values as exact rationals). -/
def transfer_audiodata_to_float (samples : List ℤ) : List ℚ :=
  samples.map (fun (s : ℤ) => (s : ℚ) / 32768)

/-- `calculate_pcm_duration` on int16 bytes: `(len(pcm) // 2) / sample_rate`. -/
def calculate_pcm_duration_bytes (pcm : List ℕ) (sampleRate : ℕ) : ℚ :=
  ((pcm.length / 2 : ℕ) : ℚ) / (sampleRate : ℚ)

/-- The frame-count/threshold configuration of `EnhancedVadProcessor.__init__`.
(`vad_mode` only parameterises the external WebRTC classifier, which the model
abstracts as `classify`.) -/
structure VadCfg where
  sampleRate : ℕ
  frameSize : ℕ
  minSpeechFrames : ℕ
  minSilenceFrames : ℕ
  padFrames : ℕ
deriving DecidableEq

/-- `EnhancedVadProcessor.__init__` with its default keyword arguments:
`min_speech_frames = int(250/30)`, `min_silence_frames = int(500/30)`,
`speech_pad_frames = int(400/30)` (Python `int` = truncation = `Nat` division).
`process_with_vad` always constructs the processor with these defaults. -/
def defaultVadCfg (sampleRate : ℕ) : VadCfg :=
  { sampleRate := sampleRate
    frameSize := VAD_FRAME_SIZE
    minSpeechFrames := 250 / FRAME_DURATION_MS
    minSilenceFrames := 500 / FRAME_DURATION_MS
    padFrames := 400 / FRAME_DURATION_MS }

/-- The mutable state of the two-state automaton in
`EnhancedVadProcessor.segment_audio` (plus the emitted segment list). -/
structure VadState where
  isSpeech : Bool
  speechStart : ℕ
  speechCount : ℕ
  silence : ℕ
  segs : List (ℕ × ℕ)
deriving DecidableEq

/-- `reset_state` / the loop-local initial values of `segment_audio`. -/
def initVadState : VadState :=
  { isSpeech := false, speechStart := 0, speechCount := 0, silence := 0, segs := [] }

/-- One iteration of the `while i < frame_count` loop of `segment_audio`,
processing frame `i` with classification `sp`.
`max(0, i - speech_pad_frames)` is `Nat` truncated subtraction;
`speech_end_frame = i - silence_frames + 1`. -/
def vadStep (cfg : VadCfg) (st : VadState) (i : ℕ) (sp : Bool) : VadState :=
  if ¬ st.isSpeech then
    if sp then
      { st with isSpeech := true, speechStart := i - cfg.padFrames,
                speechCount := 1, silence := 0 }
    else st
  else
    let st1 := if sp then { st with speechCount := st.speechCount + 1, silence := 0 }
               else { st with silence := st.silence + 1 }
    if cfg.minSilenceFrames ≤ st1.silence then
      let st2 := if cfg.minSpeechFrames ≤ st1.speechCount then
                   { st1 with segs := st1.segs ++ [(st1.speechStart, i - st1.silence + 1)] }
                 else st1
      { st2 with isSpeech := false, speechCount := 0, silence := 0 }
    else st1

/-- The frame loop of `segment_audio`, starting at frame index `i`. -/
def vadLoop (cfg : VadCfg) : ℕ → VadState → List Bool → VadState
  | _, st, [] => st
  | i, st, sp :: rest => vadLoop cfg (i + 1) (vadStep cfg st i sp) rest

/-- `segment_audio`, at the level of frame indices: the loop over the
classification flags, followed by the "last possible speech segment" emission
(`speech_end_frame = frame_count`). -/
def vadSegs (cfg : VadCfg) (flags : List Bool) : List (ℕ × ℕ) :=
  let st := vadLoop cfg 0 initVadState flags
  st.segs ++
    (if st.isSpeech = true ∧ cfg.minSpeechFrames ≤ st.speechCount then
       [(st.speechStart, flags.length)]
     else [])

/-- The per-frame classification pass of `segment_audio`:
`frames = [audio[i*F:(i+1)*F] for i in range(len(audio) // F)]` then
`is_speech_frames[i] = process_frame(frames[i])`.  `process_frame` delegates to
the external WebRTC VAD (`classify`); its fail-safe `except: return False` is
absorbed into `classify` returning `Bool`. -/
def frameFlags (classify : List ℤ → Bool) (cfg : VadCfg) (samples : List ℤ) : List Bool :=
  (List.range (samples.length / cfg.frameSize)).map
    (fun i => classify ((samples.drop (i * cfg.frameSize)).take cfg.frameSize))

/-- Timestamps attached at emission time in `segment_audio`:
`frame * FRAME_DURATION_MS / 1000` seconds. -/
def frameTime (f : ℕ) : ℚ := (f : ℚ) * (FRAME_DURATION_MS : ℚ) / 1000

/-- `segment_audio(audio, return_timestamps=True)`: list of
`(float32 segment, (start_time, end_time))`, including the whole-buffer fallback
`(entire audio, (0, len(audio)/sample_rate))` when no segment was emitted. -/
def segment_audio (classify : List ℤ → Bool) (cfg : VadCfg) (samples : List ℤ) :
    List (List ℚ × ℚ × ℚ) :=
  let flags := frameFlags classify cfg samples
  let idx := vadSegs cfg flags
  let withTimes := idx.map (fun p =>
    (transfer_audiodata_to_float
        ((samples.take (min (p.2 * cfg.frameSize) samples.length)).drop (p.1 * cfg.frameSize)),
     frameTime p.1, frameTime p.2))
  if withTimes = [] then
    [(transfer_audiodata_to_float samples, 0, (samples.length : ℚ) / (cfg.sampleRate : ℚ))]
  else withTimes

/-- `process_with_vad` on int16 input with `use_vad=True`: the energy gate, then
`EnhancedVadProcessor.process_audio` (= `segment_audio` zipped with the
per-segment resample callback, identity at 16 kHz).  When the gate fails, the
whole buffer is returned as a single tuple
`(process_pcm_data(data), 0.0, len(processed)/16000)`. -/
def process_with_vad (classify : List ℤ → Bool) (samples : List ℤ)
    (hallucinateThreshold : ℚ) (sampleRate : ℕ) : List (List ℚ × ℚ × ℚ) :=
  if ¬ is_audio_loud_enough samples hallucinateThreshold then
    [(transfer_audiodata_to_float samples, 0,
      (samples.length : ℚ) / (TARGET_SAMPLE_RATE : ℚ))]
  else
    segment_audio classify (defaultVadCfg sampleRate) samples

/-- Computable floor of a rational (`q.num / q.den`, Euclidean = floor division
since `q.den > 0`).  Python's `int()` truncates toward zero, which agrees with
the floor on the nonnegative values that arise here. -/
def ratFloor (q : ℚ) : ℤ := q.num / (q.den : ℤ)

/-- A transcript chunk `{text, start_ts, end_ts}` (engine output and
accumulated result alike). -/
structure Chunk where
  text : String
  startTs : ℚ
  endTs : ℚ
deriving DecidableEq

/-- Left-pad a decimal representation to 2 digits (`f"{n:02d}"`). -/
def pad2 (n : ℕ) : String :=
  if n < 10 then "0" ++ toString n else toString n

/-- Left-pad a decimal representation to 3 digits (`f"{n:03d}"`). -/
def pad3 (n : ℕ) : String :=
  if n < 10 then "00" ++ toString n
  else if n < 100 then "0" ++ toString n
  else toString n

/-- The within-day microsecond count of `timedelta(seconds=q)`.
Python's `timedelta` normalises to `(days, seconds, microseconds)` with
`0 ≤ seconds < 86400` and `0 ≤ microseconds < 10^6` using floor division, so
`seconds = dayUs / 10^6` and `microseconds = dayUs % 10^6` where
`dayUs = floor(q * 10^6) mod 86400·10^6`.  (`timedelta` rounds stray
fractional microseconds half-to-even where this model floors; the difference
is below 1 µs and is irrelevant to every statement proved here.) -/
def timedeltaDayUs (q : ℚ) : ℕ :=
  ((ratFloor (q * 1000000)) % 86400000000).toNat

/-- `format_timedelta`: renders `HH:MM:SS,mmm` from `td.seconds`
(= seconds within the day) and `td.microseconds`; whole days are ignored. -/
def format_timedelta (q : ℚ) : String :=
  let dayUs := timedeltaDayUs q
  let s := dayUs / 1000000
  let ms := dayUs % 1000000 / 1000
  pad2 (s / 3600) ++ ":" ++ pad2 (s % 3600 / 60) ++ ":" ++ pad2 (s % 60) ++ "," ++ pad3 ms

/-- One SRT block of `create_srt_content`
(`f"{i}\n{start} --> {end}\n{text}\n"`; `time_offset` is always 0 at the call
sites of the streaming service).  Python `str.strip()` is modelled by
`String.trim`. -/
def srtEntry (i : ℕ) (c : Chunk) : String :=
  toString i ++ "\n" ++ format_timedelta c.startTs ++ " --> " ++ format_timedelta c.endTs
    ++ "\n" ++ c.text.trim ++ "\n"

/-- `create_srt_content(chunks, 0)`: 1-based enumeration, blocks joined by a
blank line (`"\n".join` of entries each ending in `"\n"`). -/
def create_srt_content (chunks : List Chunk) : String :=
  String.intercalate "\n" ((chunks.enumFrom 1).map (fun p => srtEntry p.1 p.2))

/-- The per-session cache entry created in `_execute_streaming_service`
(`audio_buffer`, `sample_rate`, `processed_length`, `accumulated_chunks`,
`overlap_buffer`, `last_segment_start_time`, and the `language` key added once
chunks are produced).  `is_int16` is `True` throughout the modelled service. -/
structure Session where
  audioBuffer : List ℕ
  sampleRate : ℕ
  processedLength : ℚ
  accumulatedChunks : List Chunk
  overlapBuffer : List ℕ
  lastSegmentStartTime : ℚ
  language : Option String
deriving DecidableEq

/-- The request parameters consumed by `_execute_streaming_service`. -/
structure StreamParams where
  language : String
  sampleRate : ℕ
  hallucinateThreshold : ℚ
  timeOffset : ℚ
  taskId : String
  clearCache : Bool
  action : String
  targetBufferLength : ℚ
deriving DecidableEq

/-- The session entry built on first contact
(`self.audio_cache[session_id] = {...}`; no `language` key yet). -/
def initSession (p : StreamParams) : Session :=
  { audioBuffer := [], sampleRate := p.sampleRate, processedLength := 0,
    accumulatedChunks := [], overlapBuffer := [], lastSegmentStartTime := 0,
    language := none }

/-- The structured statuses a streaming call can return (the JSON payloads of
`_execute_streaming_service` / `_finalize_processing`). -/
inductive StreamResult where
  | cacheCleared
  | buffering (bufferedSeconds : ℚ)
  | processing (content : String) (currentChunks totalChunks : ℕ)
  | noSpeechDetected (processedSeconds totalProcessed : ℚ)
  | completed (content : String)
  | error (message : String)
deriving DecidableEq

/-- Timestamp adjustment of one engine chunk in the streaming round:
`{"start_ts": chunk.start_ts + abs_start, "end_ts": chunk.end_ts + abs_start}`
(both ends shifted by `abs_start`). -/
def adjustChunk (absStart : ℚ) (c : Chunk) : Chunk :=
  { text := c.text, startTs := c.startTs + absStart, endTs := c.endTs + absStart }

/-- The `for seg_audio, seg_start, seg_end in audio_segments` transcription loop
of `_execute_streaming_service`:
`abs_start = processed_length + params["time_offset"] + seg_start`, applied to
both timestamps of every chunk the external engine returns. -/
def roundChunks (engine : List ℚ → List Chunk) (processedBefore timeOffset : ℚ) :
    List (List ℚ × ℚ × ℚ) → List Chunk
  | [] => []
  | (a, s, _e) :: rest =>
      ((engine a).map (adjustChunk (processedBefore + timeOffset + s)))
        ++ roundChunks engine processedBefore timeOffset rest

/-- The transcription loop of `_pipeline_finalizer`:
`start_ts = chunk.start_ts + seg_start` but `end_ts = chunk.end_ts + seg_end`,
with no `processed_length` or `time_offset` term. -/
def finalChunks (engine : List ℚ → List Chunk) :
    List (List ℚ × ℚ × ℚ) → List Chunk
  | [] => []
  | (a, s, e) :: rest =>
      ((engine a).map (fun c => { text := c.text, startTs := c.startTs + s,
                                  endTs := c.endTs + e }))
        ++ finalChunks engine rest

/-- `process_data = audio_buffer`, prefixed by the previous round's
`overlap_buffer` when that is non-empty. -/
def combinedBuffer (overlap pending : List ℕ) : List ℕ :=
  if overlap ≠ [] then overlap ++ pending else pending

/-- Byte offset of a segment-start time in an int16 buffer:
`int(last_start * sample_rate) * 2`. -/
def segStartByteOffset (sampleRate : ℕ) (lastStart : ℚ) : ℕ :=
  (ratFloor (lastStart * (sampleRate : ℚ))).toNat * 2

/-- The processing part of `_execute_streaming_service`, entered once the
buffer is ready (or `action == "finish-task"` forces processing):
combine `overlap_buffer ++ audio_buffer`, clear `audio_buffer`, run
`process_with_vad`, withhold the last segment unless finishing, transcribe the
remaining segments, advance `processed_length` by the effective duration, and
extend `accumulated_chunks`.  A decode failure (odd byte count) propagates to
the `except` handler after the buffer was already cleared. -/
def processReady (engine : List ℚ → List Chunk) (classify : List ℤ → Bool)
    (sess : Session) (p : StreamParams) (bufferDuration : ℚ) :
    Session × StreamResult :=
  let processData := combinedBuffer sess.overlapBuffer sess.audioBuffer
  let sess1 : Session := { sess with audioBuffer := [] }
  match decode_int16 processData with
  | none => (sess1, .error "buffer size must be a multiple of element size")
  | some samples =>
    let audioSegments :=
      process_with_vad classify samples p.hallucinateThreshold sess.sampleRate
    let withhold : Bool × Session × List (List ℚ × ℚ × ℚ) :=
      if p.action = "finish-task" then (false, sess1, audioSegments)
      else
        match audioSegments.getLast? with
        | none => (false, sess1, audioSegments)
        | some (_lastSeg, lastStart, _lastEnd) =>
            (true,
             { sess1 with
                 overlapBuffer :=
                   processData.drop (segStartByteOffset sess.sampleRate lastStart),
                 lastSegmentStartTime := lastStart },
             audioSegments.dropLast)
    let isLastSegmentIncomplete := withhold.1
    let sess2 := withhold.2.1
    let currentChunks := roundChunks engine sess.processedLength p.timeOffset withhold.2.2
    let effectiveDuration :=
      if isLastSegmentIncomplete ∧ 0 < sess2.lastSegmentStartTime then
        sess2.lastSegmentStartTime
      else bufferDuration
    let sess3 := { sess2 with processedLength := sess2.processedLength + effectiveDuration }
    if currentChunks = [] then
      (sess3, .noSpeechDetected bufferDuration sess3.processedLength)
    else
      let sess4 := { sess3 with
                       accumulatedChunks := sess3.accumulatedChunks ++ currentChunks,
                       language := some p.language }
      (sess4, .processing (create_srt_content sess4.accumulatedChunks)
                currentChunks.length sess4.accumulatedChunks.length)

/-- The outcome record of `_pipeline_finalizer`. -/
inductive FinalOutcome where
  | emptyBuffer
  | success (srt : String) (chunkCount : ℕ)
  | noSpeechFinal
  | errorFinal
deriving DecidableEq

/-- `_pipeline_finalizer`: VAD-segment the remaining buffer (threshold fixed at
`HALLUCINATE_THRESHOLD`), transcribe every segment with the finalizer's
timestamp adjustment, and render SRT.  Exceptions (e.g. an odd byte count in
`np.frombuffer`) are caught and reported as an error status. -/
def pipeline_finalizer (engine : List ℚ → List Chunk) (classify : List ℤ → Bool)
    (audioBuffer : List ℕ) (sampleRate : ℕ) : FinalOutcome :=
  if audioBuffer = [] then .emptyBuffer
  else
    match decode_int16 audioBuffer with
    | none => .errorFinal
    | some samples =>
      let segs := process_with_vad classify samples HALLUCINATE_THRESHOLD sampleRate
      let allChunks := finalChunks engine segs
      if allChunks = [] then .noSpeechFinal
      else .success (create_srt_content allChunks) allChunks.length

/-- `_finalize_processing`: prepend the overlap buffer to any remainder, run
`_pipeline_finalizer`, and otherwise fall back to the accumulated chunks.  The
session entry is deliberately NOT deleted (the `del` is commented out), so the
session state is left unchanged. -/
def finalizeProcessing (engine : List ℚ → List Chunk) (classify : List ℤ → Bool)
    (sess : Session) : StreamResult :=
  let audioBuffer :=
    if sess.overlapBuffer ≠ [] then
      (if sess.audioBuffer ≠ [] then sess.overlapBuffer ++ sess.audioBuffer
       else sess.overlapBuffer)
    else sess.audioBuffer
  let fromPipeline :=
    if audioBuffer ≠ [] then
      match pipeline_finalizer engine classify audioBuffer sess.sampleRate with
      | .success srt n => if 0 < n then some (StreamResult.completed srt) else none
      | _ => none
    else none
  match fromPipeline with
  | some r => r
  | none =>
      if sess.accumulatedChunks ≠ [] then
        .completed (create_srt_content sess.accumulatedChunks)
      else .completed ""

/-- `_execute_streaming_service` as a transition on the (single-session view of
the) session store: `none` = the session id is absent from `audio_cache`.
Follows the source's branch order: missing `task_id`; cache clear; finish-task
finalize; empty-audio finalize; missing audio; then append / readiness check /
processing. -/
def streamStep (engine : List ℚ → List Chunk) (classify : List ℤ → Bool)
    (sess : Option Session) (p : StreamParams) (audioData : Option (List ℕ)) :
    Option Session × StreamResult :=
  if p.taskId = "" then
    (sess, .error "Must provide task_id parameter to identify session")
  else if p.clearCache = true ∧ sess.isSome then
    (none, .cacheCleared)
  else
    match sess with
    | some s =>
      if p.action = "finish-task" then
        (some s, finalizeProcessing engine classify s)
      else if audioData = none ∨ audioData = some [] then
        (some s, finalizeProcessing engine classify s)
      else
        match audioData with
        | none => (some s, .error "First call must provide audio data")
        | some bytes =>
          let s1 : Session := { s with audioBuffer := s.audioBuffer ++ bytes }
          let bufferDuration := calculate_pcm_duration_bytes s1.audioBuffer s1.sampleRate
          if bufferDuration < p.targetBufferLength ∧ p.action ≠ "finish-task" then
            (some s1, .buffering bufferDuration)
          else
            let r := processReady engine classify s1 p bufferDuration
            (some r.1, r.2)
    | none =>
      match audioData with
      | none => (none, .error "First call must provide audio data")
      | some bytes =>
        let s1 : Session := { initSession p with audioBuffer := bytes }
        let bufferDuration := calculate_pcm_duration_bytes s1.audioBuffer s1.sampleRate
        if bufferDuration < p.targetBufferLength ∧ p.action ≠ "finish-task" then
          (some s1, .buffering bufferDuration)
        else
          let r := processReady engine classify s1 p bufferDuration
          (some r.1, r.2)

/-- The timestamp-continuity loop of `_execute_file_service` (single-shot
mode): raw engine chunks in, absolute `(start, end)` pairs out, threading
`time_offset` and `last_chunk_end` exactly as the source does
(`if chunk.start_ts < last_chunk_end - 0.5: time_offset += last_chunk_end`). -/
def fileTimelineGo (timeOffset lastChunkEnd : ℚ) : List Chunk → List (ℚ × ℚ)
  | [] => []
  | c :: rest =>
      let off := if c.startTs < lastChunkEnd - 1/2 then timeOffset + lastChunkEnd
                 else timeOffset
      (c.startTs + off, c.endTs + off) :: fileTimelineGo off c.endTs rest

/-- The full single-shot timeline (`time_offset = 0.0`, `last_chunk_end = 0.0`
initially). -/
def fileTimeline (chunks : List Chunk) : List (ℚ × ℚ) :=
  fileTimelineGo 0 0 chunks

/-! ### Helper lemmas -/

theorem ratFloor_eq_floor (q : ℚ) : ratFloor q = ⌊q⌋ := by
  rw [Rat.floor_def]; rfl

theorem timedeltaDayUs_add_days (q : ℚ) (n : ℕ) :
    timedeltaDayUs (q + 86400 * n) = timedeltaDayUs q := by
  unfold timedeltaDayUs
  rw [ratFloor_eq_floor, ratFloor_eq_floor]
  have h : (q + 86400 * n) * 1000000 = q * 1000000 + ((86400000000 * n : ℤ) : ℚ) := by
    push_cast; ring
  rw [h, Int.floor_add_int, Int.add_mul_emod_self_left]

theorem format_timedelta_add_days (q : ℚ) (n : ℕ) :
    format_timedelta (q + 86400 * n) = format_timedelta q := by
  unfold format_timedelta
  rw [timedeltaDayUs_add_days]

theorem timedeltaDayUs_90000 : timedeltaDayUs 90000 = 3600000000 := by
  unfold timedeltaDayUs ratFloor
  norm_num
  decide

/-- Invariant of the segmentation automaton used for the minimum-duration
property: every emitted segment spans at least `min_speech_frames` frames, and
while inside a speech run the pre-roll start, the speech-frame counter and the
current silence run all fit before the current frame index. -/
def InvDur (cfg : VadCfg) (n : ℕ) (st : VadState) : Prop :=
  (∀ p ∈ st.segs, p.1 + cfg.minSpeechFrames ≤ p.2) ∧
  (st.isSpeech = true →
    st.speechStart + st.speechCount + st.silence ≤ n ∧ 1 ≤ st.speechCount)

theorem segsAppend_bound {cfg : VadCfg} {segs : List (ℕ × ℕ)} {q : ℕ × ℕ}
    (h1 : ∀ p ∈ segs, p.1 + cfg.minSpeechFrames ≤ p.2)
    (hq : q.1 + cfg.minSpeechFrames ≤ q.2) :
    ∀ p ∈ segs ++ [q], p.1 + cfg.minSpeechFrames ≤ p.2 := by
  intro p hp
  rcases List.mem_append.mp hp with h | h
  · exact h1 p h
  · simp only [List.mem_singleton] at h
    subst h
    exact hq

theorem invDur_step (cfg : VadCfg) (st : VadState) (i : ℕ) (sp : Bool)
    (h : InvDur cfg i st) : InvDur cfg (i + 1) (vadStep cfg st i sp) := by
  obtain ⟨h1, h2⟩ := h
  unfold vadStep
  cases hsp : st.isSpeech with
  | false =>
    rw [if_pos (by simp [hsp])]
    cases sp with
    | false => simp only [Bool.false_eq_true, if_false]; exact ⟨h1, by simp [hsp]⟩
    | true =>
      simp only [eq_self_iff_true, if_true]
      refine ⟨h1, fun _ => ?_⟩
      dsimp only
      omega
  | true =>
    obtain ⟨hsum, hcnt⟩ := h2 hsp
    rw [if_neg (by simp [hsp])]
    cases sp with
    | true =>
      simp only [eq_self_iff_true, if_true]
      by_cases hsil : cfg.minSilenceFrames ≤ 0
      · rw [if_pos hsil]
        by_cases hcou : cfg.minSpeechFrames ≤ st.speechCount + 1
        · rw [if_pos hcou]
          exact ⟨segsAppend_bound h1 (by dsimp only; omega), by simp⟩
        · rw [if_neg hcou]
          exact ⟨h1, by simp⟩
      · rw [if_neg hsil]
        exact ⟨h1, fun _ => by dsimp only; omega⟩
    | false =>
      simp only [Bool.false_eq_true, if_false]
      by_cases hsil : cfg.minSilenceFrames ≤ st.silence + 1
      · rw [if_pos hsil]
        by_cases hcou : cfg.minSpeechFrames ≤ st.speechCount
        · rw [if_pos hcou]
          exact ⟨segsAppend_bound h1 (by dsimp only; omega), by simp⟩
        · rw [if_neg hcou]
          exact ⟨h1, by simp⟩
      · rw [if_neg hsil]
        exact ⟨h1, fun _ => by dsimp only; omega⟩

theorem invDur_loop (cfg : VadCfg) (flags : List Bool) :
    ∀ (i : ℕ) (st : VadState), InvDur cfg i st →
      InvDur cfg (i + flags.length) (vadLoop cfg i st flags) := by
  induction flags with
  | nil => intro i st h; simpa [vadLoop] using h
  | cons sp rest ih =>
    intro i st h
    have hstep := ih (i + 1) (vadStep cfg st i sp) (invDur_step cfg st i sp h)
    have heq : i + 1 + rest.length = i + (sp :: rest).length := by
      simp only [List.length_cons]
      omega
    rw [heq] at hstep
    exact hstep

/-- Every segment the automaton emits (the whole-buffer fallback is added
outside the automaton) spans at least `min_speech_frames` frames. -/
theorem vadSegs_min_duration (cfg : VadCfg) (flags : List Bool) :
    ∀ p ∈ vadSegs cfg flags, p.1 + cfg.minSpeechFrames ≤ p.2 := by
  have h0 : InvDur cfg 0 initVadState := by
    constructor
    · intro p hp; simp [initVadState] at hp
    · intro h; simp [initVadState] at h
  have hfin := invDur_loop cfg flags 0 initVadState h0
  rw [Nat.zero_add] at hfin
  obtain ⟨h1, h2⟩ := hfin
  intro p hp
  unfold vadSegs at hp
  rcases List.mem_append.mp hp with hold | hite
  · exact h1 p hold
  · by_cases hc : (vadLoop cfg 0 initVadState flags).isSpeech = true ∧
        cfg.minSpeechFrames ≤ (vadLoop cfg 0 initVadState flags).speechCount
    · rw [if_pos hc] at hite
      simp only [List.mem_singleton] at hite
      subst hite
      obtain ⟨hsum, _⟩ := h2 hc.1
      dsimp only
      omega
    · rw [if_neg hc] at hite
      simp at hite

/-- Invariant of the segmentation automaton for ordering and non-overlap:
all emitted segments are proper (`start < end`) and chained (`end ≤ next
start`); while in a speech run the pre-roll start and silence run stay before
the frame cursor and all emitted segments end at or before the pre-roll start;
outside a speech run every emitted end lies at least `min_silence_frames`
before the cursor. -/
def InvSeg (cfg : VadCfg) (n : ℕ) (st : VadState) : Prop :=
  (∀ p ∈ st.segs, p.1 < p.2) ∧
  List.Chain' (fun a b : ℕ × ℕ => a.2 ≤ b.1) st.segs ∧
  (st.isSpeech = true → st.speechStart + st.silence + 1 ≤ n ∧
      ∀ p ∈ st.segs, p.2 ≤ st.speechStart) ∧
  (st.isSpeech = false → ∀ p ∈ st.segs, p.2 + cfg.minSilenceFrames ≤ n)

theorem chain'_append_single {segs : List (ℕ × ℕ)} {q : ℕ × ℕ}
    (h : List.Chain' (fun a b : ℕ × ℕ => a.2 ≤ b.1) segs)
    (hq : ∀ p ∈ segs, p.2 ≤ q.1) :
    List.Chain' (fun a b : ℕ × ℕ => a.2 ≤ b.1) (segs ++ [q]) := by
  refine List.chain'_append.mpr ⟨h, List.chain'_singleton q, ?_⟩
  intro x hx y hy
  simp only [List.head?_cons, Option.mem_def, Option.some.injEq] at hy
  subst hy
  exact hq x (List.mem_of_mem_getLast? hx)

theorem ltAppend_single {segs : List (ℕ × ℕ)} {q : ℕ × ℕ}
    (h : ∀ p ∈ segs, p.1 < p.2) (hq : q.1 < q.2) :
    ∀ p ∈ segs ++ [q], p.1 < p.2 := by
  intro p hp
  rcases List.mem_append.mp hp with h' | h'
  · exact h p h'
  · simp only [List.mem_singleton] at h'
    subst h'
    exact hq

theorem invSeg_step (cfg : VadCfg) (hpad : cfg.padFrames < cfg.minSilenceFrames)
    (st : VadState) (i : ℕ) (sp : Bool)
    (h : InvSeg cfg i st) : InvSeg cfg (i + 1) (vadStep cfg st i sp) := by
  obtain ⟨h1, h2, h3, h4⟩ := h
  unfold vadStep
  cases hsp : st.isSpeech with
  | false =>
    rw [if_pos (by simp [hsp])]
    cases sp with
    | false =>
      simp only [Bool.false_eq_true, if_false]
      refine ⟨h1, h2, fun hc => absurd hc (by simp [hsp]), fun _ p hp => ?_⟩
      have := h4 hsp p hp
      omega
    | true =>
      simp only [eq_self_iff_true, if_true]
      refine ⟨h1, h2, fun _ => ⟨by dsimp only; omega, fun p hp => ?_⟩,
        fun hf => by simp at hf⟩
      have := h4 hsp p hp
      dsimp only
      omega
  | true =>
    obtain ⟨hsum, hall⟩ := h3 hsp
    rw [if_neg (by simp [hsp])]
    cases sp with
    | true =>
      simp only [eq_self_iff_true, if_true]
      by_cases hsil : cfg.minSilenceFrames ≤ 0
      · exact absurd hsil (by omega)
      · rw [if_neg hsil]
        exact ⟨h1, h2, fun _ => ⟨by dsimp only; omega, hall⟩, fun hf => by simp at hf⟩
    | false =>
      simp only [Bool.false_eq_true, if_false]
      by_cases hsil : cfg.minSilenceFrames ≤ st.silence + 1
      · rw [if_pos hsil]
        by_cases hcou : cfg.minSpeechFrames ≤ st.speechCount
        · rw [if_pos hcou]
          refine ⟨ltAppend_single h1 (by dsimp only; omega),
                  chain'_append_single h2 hall,
                  fun hf => by simp at hf,
                  fun _ p hp => ?_⟩
          rcases List.mem_append.mp hp with h' | h'
          · have := hall p h'
            omega
          · simp only [List.mem_singleton] at h'
            subst h'
            dsimp only
            omega
        · rw [if_neg hcou]
          refine ⟨h1, h2, fun hf => by simp at hf, fun _ p hp => ?_⟩
          have := hall p hp
          omega
      · rw [if_neg hsil]
        exact ⟨h1, h2, fun _ => ⟨by dsimp only; omega, hall⟩, fun hf => by simp at hf⟩

theorem invSeg_loop (cfg : VadCfg) (hpad : cfg.padFrames < cfg.minSilenceFrames)
    (flags : List Bool) :
    ∀ (i : ℕ) (st : VadState), InvSeg cfg i st →
      InvSeg cfg (i + flags.length) (vadLoop cfg i st flags) := by
  induction flags with
  | nil => intro i st h; simpa [vadLoop] using h
  | cons sp rest ih =>
    intro i st h
    have hstep := ih (i + 1) (vadStep cfg st i sp) (invSeg_step cfg hpad st i sp h)
    have heq : i + 1 + rest.length = i + (sp :: rest).length := by
      simp only [List.length_cons]
      omega
    rw [heq] at hstep
    exact hstep

/-- Frame-level conclusion for the full emitted list (final tail segment
included): proper segments in chained order, provided the pre-roll padding is
smaller than the silence run required to close a segment. -/
theorem vadSegs_sorted (cfg : VadCfg) (hpad : cfg.padFrames < cfg.minSilenceFrames)
    (flags : List Bool) :
    (∀ p ∈ vadSegs cfg flags, p.1 < p.2) ∧
    List.Chain' (fun a b : ℕ × ℕ => a.2 ≤ b.1) (vadSegs cfg flags) := by
  have h0 : InvSeg cfg 0 initVadState := by
    refine ⟨?_, ?_, ?_, ?_⟩ <;> simp [initVadState]
  have hfin := invSeg_loop cfg hpad flags 0 initVadState h0
  rw [Nat.zero_add] at hfin
  obtain ⟨h1, h2, h3, _⟩ := hfin
  simp only [vadSegs]
  by_cases hc : (vadLoop cfg 0 initVadState flags).isSpeech = true ∧
      cfg.minSpeechFrames ≤ (vadLoop cfg 0 initVadState flags).speechCount
  · rw [if_pos hc]
    obtain ⟨hsum, hall⟩ := h3 hc.1
    exact ⟨ltAppend_single h1 (by dsimp only; omega), chain'_append_single h2 hall⟩
  · rw [if_neg hc]
    simp only [List.append_nil]
    exact ⟨h1, h2⟩

theorem frameTime_mono {a b : ℕ} (h : a ≤ b) : frameTime a ≤ frameTime b := by
  have hc : (a : ℚ) ≤ (b : ℚ) := by exact_mod_cast h
  simp only [frameTime, FRAME_DURATION_MS]
  push_cast
  linarith

theorem frameTime_strictMono {a b : ℕ} (h : a < b) : frameTime a < frameTime b := by
  have hc : (a : ℚ) < (b : ℚ) := by exact_mod_cast h
  simp only [frameTime, FRAME_DURATION_MS]
  push_cast
  linarith

theorem combinedBuffer_eq_append (overlap pending : List ℕ) :
    combinedBuffer overlap pending = overlap ++ pending := by
  unfold combinedBuffer
  split_ifs with h
  · rfl
  · simp only [not_not] at h
    rw [h, List.nil_append]

theorem decode_int16_replicate_zero (n : ℕ) :
    decode_int16 (List.replicate (2 * n) 0) = some (List.replicate n 0) := by
  induction n with
  | zero => simp [decode_int16]
  | succ k ih =>
    have h2 : 2 * (k + 1) = (2 * k) + 1 + 1 := by ring
    rw [h2, List.replicate_succ, List.replicate_succ, List.replicate_succ]
    simp only [decode_int16, ih, Option.map_some]
    norm_num [toInt16]

theorem loud_replicate_zero (n : ℕ) (thr : ℚ) (hthr : 0 ≤ thr) :
    is_audio_loud_enough (List.replicate n (0:ℤ)) thr = false := by
  unfold is_audio_loud_enough
  have habs : absInt16 0 = 0 := by norm_num [absInt16]
  rw [List.map_replicate, habs]
  have hsum : (List.replicate n (0 : ℤ)).sum = 0 := by simp
  rw [hsum]
  have hnot : ¬ (thr * ((List.replicate n (0:ℤ)).length : ℚ) < ((0 : ℤ) : ℚ)) := by
    push_cast
    simp only [List.length_replicate]
    exact not_lt.mpr (by positivity)
  rw [decide_eq_false hnot, Bool.and_false]

theorem transfer_replicate_zero (n : ℕ) :
    transfer_audiodata_to_float (List.replicate n (0:ℤ)) = List.replicate n (0:ℚ) := by
  unfold transfer_audiodata_to_float
  rw [List.map_replicate]
  norm_num

theorem process_with_vad_silent (classify : List ℤ → Bool) (n : ℕ) (thr : ℚ)
    (hthr : 0 ≤ thr) (rate : ℕ) :
    process_with_vad classify (List.replicate n (0:ℤ)) thr rate =
      [(List.replicate n (0:ℚ), 0, (n : ℚ) / 16000)] := by
  unfold process_with_vad
  rw [if_pos (by simp [loud_replicate_zero n thr hthr])]
  rw [transfer_replicate_zero]
  simp [TARGET_SAMPLE_RATE]

theorem segStartByteOffset_zero (rate : ℕ) : segStartByteOffset rate 0 = 0 := by
  simp [segStartByteOffset, ratFloor]

/-- Routing: a first-contact call (no session yet) with audio attached either
buffers or processes. -/
theorem streamStep_none_audio (engine : List ℚ → List Chunk) (classify : List ℤ → Bool)
    (p : StreamParams) (bytes : List ℕ)
    (htask : p.taskId ≠ "") :
    streamStep engine classify none p (some bytes) =
      (if calculate_pcm_duration_bytes bytes p.sampleRate < p.targetBufferLength ∧
            p.action ≠ "finish-task" then
         (some { initSession p with audioBuffer := bytes },
          .buffering (calculate_pcm_duration_bytes bytes p.sampleRate))
       else
         ((processReady engine classify { initSession p with audioBuffer := bytes } p
             (calculate_pcm_duration_bytes bytes p.sampleRate)).1,
          (processReady engine classify { initSession p with audioBuffer := bytes } p
             (calculate_pcm_duration_bytes bytes p.sampleRate)).2)) := by
  unfold streamStep
  rw [if_neg htask, if_neg (by simp)]
  rfl

/-- Routing: a call on an existing session, with non-empty audio and no
cache-clear/finish-task action, appends and then either buffers or processes. -/
theorem streamStep_some_audio (engine : List ℚ → List Chunk) (classify : List ℤ → Bool)
    (p : StreamParams) (s : Session) (bytes : List ℕ)
    (htask : p.taskId ≠ "") (hclear : p.clearCache = false)
    (haction : p.action ≠ "finish-task") (hne : bytes ≠ []) :
    streamStep engine classify (some s) p (some bytes) =
      (if calculate_pcm_duration_bytes (s.audioBuffer ++ bytes) s.sampleRate <
            p.targetBufferLength then
         (some { s with audioBuffer := s.audioBuffer ++ bytes },
          .buffering (calculate_pcm_duration_bytes (s.audioBuffer ++ bytes) s.sampleRate))
       else
         ((processReady engine classify { s with audioBuffer := s.audioBuffer ++ bytes } p
             (calculate_pcm_duration_bytes (s.audioBuffer ++ bytes) s.sampleRate)).1,
          (processReady engine classify { s with audioBuffer := s.audioBuffer ++ bytes } p
             (calculate_pcm_duration_bytes (s.audioBuffer ++ bytes) s.sampleRate)).2)) := by
  unfold streamStep
  rw [if_neg htask, if_neg (by simp [hclear])]
  show (if p.action = "finish-task" then (some s, finalizeProcessing engine classify s)
        else if some bytes = none ∨ some bytes = some [] then
          (some s, finalizeProcessing engine classify s)
        else
          let s1 : Session := { s with audioBuffer := s.audioBuffer ++ bytes }
          let bufferDuration := calculate_pcm_duration_bytes s1.audioBuffer s1.sampleRate
          if bufferDuration < p.targetBufferLength ∧ p.action ≠ "finish-task" then
            (some s1, .buffering bufferDuration)
          else
            let r := processReady engine classify s1 p bufferDuration
            (some r.1, r.2)) = _
  rw [if_neg haction, if_neg (by simp [hne])]
  rw [if_congr (show (calculate_pcm_duration_bytes (s.audioBuffer ++ bytes) s.sampleRate <
        p.targetBufferLength ∧ p.action ≠ "finish-task") ↔
      calculate_pcm_duration_bytes (s.audioBuffer ++ bytes) s.sampleRate <
        p.targetBufferLength from by simp [haction]) rfl rfl]

/-- Behaviour of a processing round that withholds the last segment (decode
succeeded, not a finish-task): the pending buffer is cleared, the new overlap
buffer is the combined buffer re-sliced from the withheld segment's
start-sample byte offset, `last_segment_start_time` is set to that start, and
`processed_length` advances by the withheld start when positive and by the
pending-buffer duration otherwise. -/
theorem processReady_withhold_spec (engine : List ℚ → List Chunk) (classify : List ℤ → Bool)
    (sess : Session) (p : StreamParams) (d : ℚ) (samples : List ℤ)
    (a : List ℚ) (ls e : ℚ)
    (hdec : decode_int16 (combinedBuffer sess.overlapBuffer sess.audioBuffer) = some samples)
    (hact : p.action ≠ "finish-task")
    (hlast : (process_with_vad classify samples p.hallucinateThreshold
        sess.sampleRate).getLast? = some (a, ls, e)) :
    ((processReady engine classify sess p d).1).audioBuffer = [] ∧
    ((processReady engine classify sess p d).1).overlapBuffer =
      (combinedBuffer sess.overlapBuffer sess.audioBuffer).drop
        (segStartByteOffset sess.sampleRate ls) ∧
    ((processReady engine classify sess p d).1).lastSegmentStartTime = ls ∧
    ((processReady engine classify sess p d).1).processedLength =
      sess.processedLength + (if 0 < ls then ls else d) ∧
    ((processReady engine classify sess p d).1).sampleRate = sess.sampleRate := by
  simp only [processReady]
  rw [hdec]
  simp only [Option.some.injEq]
  rw [if_neg hact, hlast]
  simp only [true_and, eq_self_iff_true]
  split_ifs with hpos hcc hcc <;> exact ⟨rfl, rfl, rfl, rfl, rfl⟩

/-- Full characterization of a withholding round that yields no transcript
chunks: the session keeps its rate/accumulated chunks/language, clears the
pending buffer, stores the re-sliced overlap and the withheld start time, and
the round reports "no_speech_detected". -/
theorem processReady_withhold_eq (engine : List ℚ → List Chunk) (classify : List ℤ → Bool)
    (sess : Session) (p : StreamParams) (d : ℚ) (samples : List ℤ)
    (a : List ℚ) (ls e : ℚ)
    (hdec : decode_int16 (combinedBuffer sess.overlapBuffer sess.audioBuffer) = some samples)
    (hact : p.action ≠ "finish-task")
    (hlast : (process_with_vad classify samples p.hallucinateThreshold
        sess.sampleRate).getLast? = some (a, ls, e))
    (hchunks : roundChunks engine sess.processedLength p.timeOffset
        ((process_with_vad classify samples p.hallucinateThreshold
          sess.sampleRate).dropLast) = []) :
    processReady engine classify sess p d =
      ({ sess with
           audioBuffer := [],
           overlapBuffer := (combinedBuffer sess.overlapBuffer sess.audioBuffer).drop
             (segStartByteOffset sess.sampleRate ls),
           lastSegmentStartTime := ls,
           processedLength := sess.processedLength + (if 0 < ls then ls else d) },
       .noSpeechDetected d (sess.processedLength + (if 0 < ls then ls else d))) := by
  simp only [processReady]
  rw [hdec]
  simp only []
  rw [if_neg hact, hlast]
  simp only [hchunks, true_and, eq_self_iff_true, if_true]

/-! ### Claims -/

/-- The parameters of Scenario A: 16 kHz int16 session,
`target_buffer_length = 3.0`, energy threshold 100, no offset, no special
action. -/
def scenarioAParams : StreamParams :=
  { language := "zh", sampleRate := 16000, hallucinateThreshold := 100, timeOffset := 0,
    taskId := "scenario-a", clearCache := false, action := "", targetBufferLength := 3 }

/-- One second of silent int16 16 kHz mono audio: 32000 zero bytes. -/
def silentChunk : List ℕ := List.replicate 32000 0

/-- The session after Scenario A's first call. -/
def scenarioASession1 : Session :=
  { audioBuffer := List.replicate 32000 0, sampleRate := 16000, processedLength := 0,
    accumulatedChunks := [], overlapBuffer := [], lastSegmentStartTime := 0,
    language := none }

/-- The session after Scenario A's second call. -/
def scenarioASession2 : Session :=
  { audioBuffer := List.replicate 64000 0, sampleRate := 16000, processedLength := 0,
    accumulatedChunks := [], overlapBuffer := [], lastSegmentStartTime := 0,
    language := none }

/-- The session after Scenario A's third call: pending buffer cleared,
`processed_length = 3.0`; the silent 3 s (as the round's single whole-buffer
pseudo-segment starting at 0.0) is withheld into `overlap_buffer`. -/
def scenarioASession3 : Session :=
  { audioBuffer := [], sampleRate := 16000, processedLength := 3,
    accumulatedChunks := [], overlapBuffer := List.replicate 96000 0,
    lastSegmentStartTime := 0, language := none }

/-- C1: Scenario A.  Three sequential 1-second all-zero int16 16 kHz chunks
with `target_buffer_length = 3.0` and threshold 100: the first two calls
return "buffering" with 1.0 s resp. 2.0 s buffered; the third call fails the
energy gate (so neither the frame classifier nor the engine is ever invoked —
the theorem holds for EVERY `classify` and `engine`), performs no frame
segmentation, returns "no_speech_detected" with zero transcript chunks, and
leaves `processed_duration = 3.0`. -/
theorem C1_scenario_A (engine : List ℚ → List Chunk) (classify : List ℤ → Bool) :
    streamStep engine classify none scenarioAParams (some silentChunk) =
      (some scenarioASession1, .buffering 1) ∧
    streamStep engine classify (some scenarioASession1) scenarioAParams (some silentChunk) =
      (some scenarioASession2, .buffering 2) ∧
    streamStep engine classify (some scenarioASession2) scenarioAParams (some silentChunk) =
      (some scenarioASession3, .noSpeechDetected 3 3) := by
  have htask : scenarioAParams.taskId ≠ "" := by decide
  have hclear : scenarioAParams.clearCache = false := rfl
  have hact : scenarioAParams.action ≠ "finish-task" := by decide
  have hchunk : silentChunk ≠ [] := by
    unfold silentChunk
    intro h
    have hlen := congrArg List.length h
    rw [List.length_replicate] at hlen
    exact absurd hlen (by norm_num)
  refine ⟨?_, ?_, ?_⟩
  · rw [streamStep_none_audio engine classify scenarioAParams silentChunk htask]
    have hdur : calculate_pcm_duration_bytes silentChunk scenarioAParams.sampleRate = 1 := by
      unfold silentChunk calculate_pcm_duration_bytes
      rw [List.length_replicate]
      norm_num [scenarioAParams]
    rw [hdur]
    rw [if_pos ⟨by norm_num [scenarioAParams], hact⟩]
    rfl
  · rw [streamStep_some_audio engine classify scenarioAParams scenarioASession1 silentChunk
      htask hclear hact hchunk]
    have happ : scenarioASession1.audioBuffer ++ silentChunk = List.replicate 64000 (0:ℕ) := by
      show List.replicate 32000 (0:ℕ) ++ List.replicate 32000 0 = List.replicate 64000 0
      rw [← List.replicate_add]
    rw [happ]
    have hdur : calculate_pcm_duration_bytes (List.replicate 64000 (0:ℕ))
        scenarioASession1.sampleRate = 2 := by
      unfold calculate_pcm_duration_bytes
      rw [List.length_replicate]
      norm_num [scenarioASession1]
    rw [hdur]
    rw [if_pos (by norm_num [scenarioAParams])]
    rfl
  · rw [streamStep_some_audio engine classify scenarioAParams scenarioASession2 silentChunk
      htask hclear hact hchunk]
    have happ : scenarioASession2.audioBuffer ++ silentChunk = List.replicate 96000 (0:ℕ) := by
      show List.replicate 64000 (0:ℕ) ++ List.replicate 32000 0 = List.replicate 96000 0
      rw [← List.replicate_add]
    rw [happ]
    have hd3 : calculate_pcm_duration_bytes (List.replicate 96000 (0:ℕ))
        scenarioASession2.sampleRate = 3 := by
      unfold calculate_pcm_duration_bytes
      rw [List.length_replicate]
      norm_num [scenarioASession2]
    rw [hd3]
    rw [if_neg (by norm_num [scenarioAParams])]
    have hvad : process_with_vad classify (List.replicate 48000 (0:ℤ))
        scenarioAParams.hallucinateThreshold
        ({ scenarioASession2 with
             audioBuffer := List.replicate 96000 (0:ℕ) } : Session).sampleRate
        = [(List.replicate 48000 (0:ℚ), 0, 3)] := by
      rw [show scenarioAParams.hallucinateThreshold = 100 from rfl]
      rw [process_with_vad_silent classify 48000 100 (by norm_num)]
      norm_num
    have heq := processReady_withhold_eq engine classify
      ({ scenarioASession2 with audioBuffer := List.replicate 96000 (0:ℕ) }) scenarioAParams 3
      (List.replicate 48000 (0:ℤ)) (List.replicate 48000 (0:ℚ)) 0 3
      (by
        show decode_int16 (combinedBuffer scenarioASession2.overlapBuffer
          (List.replicate 96000 (0:ℕ))) = _
        rw [show scenarioASession2.overlapBuffer = ([] : List ℕ) from rfl,
          combinedBuffer_eq_append, List.nil_append]
        have h := decode_int16_replicate_zero 48000
        norm_num at h
        exact h)
      hact
      (by rw [hvad]; rfl)
      (by rw [hvad]; rfl)
    rw [heq]
    have hpl : scenarioASession2.processedLength + (if (0:ℚ) < 0 then (0:ℚ) else 3) = 3 := by
      norm_num [scenarioASession2]
    rw [hpl]
    rw [show (combinedBuffer ({ scenarioASession2 with
          audioBuffer := List.replicate 96000 (0:ℕ) } : Session).overlapBuffer
        (List.replicate 96000 (0:ℕ))).drop
        (segStartByteOffset ({ scenarioASession2 with
          audioBuffer := List.replicate 96000 (0:ℕ) } : Session).sampleRate 0)
        = List.replicate 96000 (0:ℕ) from by
      rw [segStartByteOffset_zero, List.drop_zero,
        show ({ scenarioASession2 with
          audioBuffer := List.replicate 96000 (0:ℕ) } : Session).overlapBuffer
          = ([] : List ℕ) from rfl, combinedBuffer_eq_append, List.nil_append]]
    rfl

/-- Error branch of a processing round: when the int16 decode of the combined
buffer fails (odd byte count), the pending buffer has already been cleared and
the call returns a generic error status. -/
theorem processReady_decode_error (engine : List ℚ → List Chunk) (classify : List ℤ → Bool)
    (sess : Session) (p : StreamParams) (d : ℚ)
    (hdec : decode_int16 (combinedBuffer sess.overlapBuffer sess.audioBuffer) = none) :
    processReady engine classify sess p d =
      ({ sess with audioBuffer := [] },
       .error "buffer size must be a multiple of element size") := by
  simp only [processReady]
  rw [hdec]

theorem decode_int16_odd : ∀ (l : List ℕ), l.length % 2 = 1 → decode_int16 l = none := by
  intro l
  induction l using decode_int16.induct with
  | case1 =>
    intro h
    simp at h
  | case2 lo hi rest ih =>
    intro h
    simp only [List.length_cons] at h
    have hrest : rest.length % 2 = 1 := by omega
    simp [decode_int16, ih hrest]
  | case3 x =>
    intro _
    rfl

/-- Parameters used by the small concrete sessions below: 16 kHz int16,
threshold 100, `target_buffer_length = 0` so a single byte of audio makes the
buffer ready. -/
def tinyParams : StreamParams :=
  { language := "zh", sampleRate := 16000, hallucinateThreshold := 100, timeOffset := 0,
    taskId := "tiny", clearCache := false, action := "", targetBufferLength := 0 }

/-- A 32-byte silent session at 16 kHz used by small witnesses. -/
def tinySilentSession : Session :=
  { audioBuffer := List.replicate 32 0, sampleRate := 16000, processedLength := 0,
    accumulatedChunks := [], overlapBuffer := [], lastSegmentStartTime := 0,
    language := none }

/-- C2 (amended): after every non-finalize processing round whose int16 decode
succeeds (the last segment, which always exists, being withheld), the new
`overlap_buffer` is exactly the combined buffer's bytes from the byte offset
`int(last_start * sample_rate) * 2` of the withheld segment's start onward,
and `processed_duration` advances by that start time when it is positive — in
which case the overlap indeed holds exactly the audio after the cut point
implied by the advance — but by the full pending-buffer duration when the
withheld segment starts at 0.0, in which case the overlap is the ENTIRE
combined buffer and extends before the cut point.  The overlap buffer is
always prefixed onto the next round's input. -/
theorem C2_overlap_cut (engine : List ℚ → List Chunk) (classify : List ℤ → Bool)
    (sess : Session) (p : StreamParams) (d : ℚ) (samples : List ℤ)
    (a : List ℚ) (ls e : ℚ)
    (hdec : decode_int16 (combinedBuffer sess.overlapBuffer sess.audioBuffer) = some samples)
    (hact : p.action ≠ "finish-task")
    (hlast : (process_with_vad classify samples p.hallucinateThreshold
        sess.sampleRate).getLast? = some (a, ls, e)) :
    ((processReady engine classify sess p d).1).overlapBuffer =
      (combinedBuffer sess.overlapBuffer sess.audioBuffer).drop
        (segStartByteOffset sess.sampleRate ls) ∧
    ((processReady engine classify sess p d).1).processedLength =
      sess.processedLength + (if 0 < ls then ls else d) ∧
    (∀ pending : List ℕ,
      combinedBuffer ((processReady engine classify sess p d).1).overlapBuffer pending =
        ((processReady engine classify sess p d).1).overlapBuffer ++ pending) := by
  obtain ⟨_, h2, _, h4, _⟩ :=
    processReady_withhold_spec engine classify sess p d samples a ls e hdec hact hlast
  exact ⟨h2, h4, fun pending => combinedBuffer_eq_append _ _⟩

/-- Witness for C2's amended theorem: a 32-byte silent buffer (the energy gate
fails, the whole-buffer pseudo-segment with start 0.0 is withheld). -/
theorem C2_overlap_cut_witness :
    (decode_int16 (combinedBuffer ([] : List ℕ) (List.replicate 32 0))
        = some (List.replicate 16 (0:ℤ))) ∧
    ((((processReady (fun _ => []) (fun _ => true) tinySilentSession tinyParams
          (1/1000)).1).overlapBuffer =
        (combinedBuffer tinySilentSession.overlapBuffer tinySilentSession.audioBuffer).drop
          (segStartByteOffset tinySilentSession.sampleRate 0)) ∧
      (((processReady (fun _ => []) (fun _ => true) tinySilentSession tinyParams
          (1/1000)).1).processedLength =
        tinySilentSession.processedLength + (if (0:ℚ) < 0 then (0:ℚ) else 1/1000)) ∧
      (∀ pending : List ℕ,
        combinedBuffer (((processReady (fun _ => []) (fun _ => true) tinySilentSession
            tinyParams (1/1000)).1).overlapBuffer) pending =
          (((processReady (fun _ => []) (fun _ => true) tinySilentSession
            tinyParams (1/1000)).1).overlapBuffer) ++ pending)) := by
  have hdec : decode_int16 (combinedBuffer ([] : List ℕ) (List.replicate 32 0))
      = some (List.replicate 16 (0:ℤ)) := by
    rw [combinedBuffer_eq_append, List.nil_append]
    have h := decode_int16_replicate_zero 16
    norm_num at h
    exact h
  have hvad : process_with_vad (fun _ => true) (List.replicate 16 (0:ℤ))
      tinyParams.hallucinateThreshold tinySilentSession.sampleRate
      = [(List.replicate 16 (0:ℚ), 0, 1/1000)] := by
    rw [show tinyParams.hallucinateThreshold = 100 from rfl]
    rw [process_with_vad_silent (fun _ => true) 16 100 (by norm_num)]
    norm_num
  exact ⟨hdec, C2_overlap_cut (fun _ => []) (fun _ => true) tinySilentSession tinyParams
    (1/1000) (List.replicate 16 (0:ℤ)) (List.replicate 16 (0:ℚ)) 0 (1/1000) hdec
    (by decide) (by rw [hvad]; rfl)⟩

/-- C2 (counterexample): a single ready round over a 32-byte all-zero buffer
(energy gate fails, the whole-buffer pseudo-segment starts at 0.0) leaves
`overlap_buffer` equal to the ENTIRE combined buffer while
`processed_duration` advances by the full 1/1000 s; the bytes strictly after
the cut point implied by that advance (byte offset 32) are empty, so the
non-empty overlap buffer is NOT contained in them. -/
theorem C2_counterexample :
    streamStep (fun _ => []) (fun _ => true) none tinyParams (some (List.replicate 32 0)) =
      (some { audioBuffer := [], sampleRate := 16000, processedLength := 1/1000,
              accumulatedChunks := [], overlapBuffer := List.replicate 32 0,
              lastSegmentStartTime := 0, language := none },
       .noSpeechDetected (1/1000) (1/1000)) ∧
    List.replicate 32 (0:ℕ) ≠ [] ∧
    segStartByteOffset 16000 (1/1000) = 32 ∧
    (List.replicate 32 (0:ℕ)).drop 32 = [] ∧
    List.replicate 32 (0:ℕ) ≠ (List.replicate 32 (0:ℕ)).drop 32 := by
  have hdrop : (List.replicate 32 (0:ℕ)).drop 32 = [] := by
    refine List.drop_eq_nil_of_le ?_
    rw [List.length_replicate]
  have hne : List.replicate 32 (0:ℕ) ≠ [] := by
    intro h
    have hlen := congrArg List.length h
    rw [List.length_replicate] at hlen
    exact absurd hlen (by norm_num)
  refine ⟨?_, hne, ?_, hdrop, by rw [hdrop]; exact hne⟩
  · rw [streamStep_none_audio (fun _ => []) (fun _ => true) tinyParams
      (List.replicate 32 0) (by decide)]
    have hdur : calculate_pcm_duration_bytes (List.replicate 32 (0:ℕ))
        tinyParams.sampleRate = 1/1000 := by
      unfold calculate_pcm_duration_bytes
      rw [List.length_replicate]
      norm_num [tinyParams]
    rw [hdur]
    rw [if_neg (by norm_num [tinyParams])]
    have hdec : decode_int16 (combinedBuffer
        ({ initSession tinyParams with
             audioBuffer := List.replicate 32 (0:ℕ) } : Session).overlapBuffer
        (List.replicate 32 (0:ℕ))) = some (List.replicate 16 (0:ℤ)) := by
      show decode_int16 (combinedBuffer ([] : List ℕ) (List.replicate 32 0)) = _
      rw [combinedBuffer_eq_append, List.nil_append]
      have h := decode_int16_replicate_zero 16
      norm_num at h
      exact h
    have hvad : process_with_vad (fun _ => true) (List.replicate 16 (0:ℤ))
        tinyParams.hallucinateThreshold
        ({ initSession tinyParams with
             audioBuffer := List.replicate 32 (0:ℕ) } : Session).sampleRate
        = [(List.replicate 16 (0:ℚ), 0, 1/1000)] := by
      rw [show tinyParams.hallucinateThreshold = 100 from rfl]
      rw [process_with_vad_silent (fun _ => true) 16 100 (by norm_num)]
      norm_num
    have heq := processReady_withhold_eq (fun _ => []) (fun _ => true)
      ({ initSession tinyParams with audioBuffer := List.replicate 32 (0:ℕ) }) tinyParams
      (1/1000) (List.replicate 16 (0:ℤ)) (List.replicate 16 (0:ℚ)) 0 (1/1000)
      hdec (by decide) (by rw [hvad]; rfl) (by rw [hvad]; rfl)
    rw [heq]
    have hov : (combinedBuffer ({ initSession tinyParams with
          audioBuffer := List.replicate 32 (0:ℕ) } : Session).overlapBuffer
        (List.replicate 32 (0:ℕ))).drop
        (segStartByteOffset ({ initSession tinyParams with
          audioBuffer := List.replicate 32 (0:ℕ) } : Session).sampleRate 0)
        = List.replicate 32 (0:ℕ) := by
      rw [segStartByteOffset_zero, List.drop_zero]
      show combinedBuffer ([] : List ℕ) (List.replicate 32 0) = _
      rw [combinedBuffer_eq_append, List.nil_append]
    rw [hov]
    have hpl : ({ initSession tinyParams with
        audioBuffer := List.replicate 32 (0:ℕ) } : Session).processedLength +
        (if (0:ℚ) < 0 then (0:ℚ) else 1/1000) = 1/1000 := by
      norm_num [initSession, tinyParams]
    rw [hpl]
    rfl
  · unfold segStartByteOffset ratFloor
    norm_num
    decide

/-- C3: overlap continuity.  For every non-finalize round N whose decode
succeeds (a last segment then always exists and is withheld), the withheld raw
bytes — the combined buffer from the withheld segment's start-sample byte
offset to the end — are stored as the new overlap buffer; and for any round
N+1 that reaches processing (non-empty audio appended, buffer ready, no
clear/finish), round N+1's combined buffer is exactly those bytes followed by
the new pending audio, so the withheld bytes reappear byte-identical as its
prefix. -/
theorem C3_overlap_continuity (engine : List ℚ → List Chunk) (classify : List ℤ → Bool)
    (sess : Session) (p p2 : StreamParams) (d : ℚ) (samples : List ℤ)
    (a : List ℚ) (ls e : ℚ) (bytes2 : List ℕ)
    (hdec : decode_int16 (combinedBuffer sess.overlapBuffer sess.audioBuffer) = some samples)
    (hact : p.action ≠ "finish-task")
    (hlast : (process_with_vad classify samples p.hallucinateThreshold
        sess.sampleRate).getLast? = some (a, ls, e))
    (htask2 : p2.taskId ≠ "") (hclear2 : p2.clearCache = false)
    (hact2 : p2.action ≠ "finish-task") (hne2 : bytes2 ≠ [])
    (hready2 : ¬ calculate_pcm_duration_bytes
        (((processReady engine classify sess p d).1).audioBuffer ++ bytes2)
        ((processReady engine classify sess p d).1).sampleRate < p2.targetBufferLength) :
    ((processReady engine classify sess p d).1).overlapBuffer =
      (combinedBuffer sess.overlapBuffer sess.audioBuffer).drop
        (segStartByteOffset sess.sampleRate ls) ∧
    streamStep engine classify (some (processReady engine classify sess p d).1) p2
        (some bytes2) =
      (some (processReady engine classify
          { (processReady engine classify sess p d).1 with
              audioBuffer := ((processReady engine classify sess p d).1).audioBuffer
                ++ bytes2 } p2
          (calculate_pcm_duration_bytes
            (((processReady engine classify sess p d).1).audioBuffer ++ bytes2)
            ((processReady engine classify sess p d).1).sampleRate)).1,
       (processReady engine classify
          { (processReady engine classify sess p d).1 with
              audioBuffer := ((processReady engine classify sess p d).1).audioBuffer
                ++ bytes2 } p2
          (calculate_pcm_duration_bytes
            (((processReady engine classify sess p d).1).audioBuffer ++ bytes2)
            ((processReady engine classify sess p d).1).sampleRate)).2) ∧
    (combinedBuffer ((processReady engine classify sess p d).1).overlapBuffer
        (((processReady engine classify sess p d).1).audioBuffer ++ bytes2)).take
        (((combinedBuffer sess.overlapBuffer sess.audioBuffer).drop
          (segStartByteOffset sess.sampleRate ls)).length) =
      (combinedBuffer sess.overlapBuffer sess.audioBuffer).drop
        (segStartByteOffset sess.sampleRate ls) := by
  obtain ⟨_, h2, _, _, _⟩ :=
    processReady_withhold_spec engine classify sess p d samples a ls e hdec hact hlast
  refine ⟨h2, ?_, ?_⟩
  · rw [streamStep_some_audio engine classify p2 ((processReady engine classify sess p d).1)
      bytes2 htask2 hclear2 hact2 hne2]
    rw [if_neg hready2]
  · rw [h2]
    rw [combinedBuffer_eq_append ((combinedBuffer sess.overlapBuffer sess.audioBuffer).drop
        (segStartByteOffset sess.sampleRate ls))]
    exact List.take_left _ _

/-- Witness for C3: round N over the 32-byte silent session, round N+1 fed two
further zero bytes. -/
theorem C3_overlap_continuity_witness :
    (decode_int16 (combinedBuffer tinySilentSession.overlapBuffer
        tinySilentSession.audioBuffer) = some (List.replicate 16 (0:ℤ))) ∧
    (([0, 0] : List ℕ) ≠ []) ∧
    ((combinedBuffer (((processReady (fun _ => []) (fun _ => true) tinySilentSession
          tinyParams (1/1000)).1).overlapBuffer)
        ((((processReady (fun _ => []) (fun _ => true) tinySilentSession
          tinyParams (1/1000)).1).audioBuffer) ++ [0, 0])).take
        (((combinedBuffer tinySilentSession.overlapBuffer
            tinySilentSession.audioBuffer).drop
          (segStartByteOffset tinySilentSession.sampleRate 0)).length) =
      (combinedBuffer tinySilentSession.overlapBuffer tinySilentSession.audioBuffer).drop
        (segStartByteOffset tinySilentSession.sampleRate 0)) := by
  have hdec : decode_int16 (combinedBuffer tinySilentSession.overlapBuffer
      tinySilentSession.audioBuffer) = some (List.replicate 16 (0:ℤ)) := by
    show decode_int16 (combinedBuffer ([] : List ℕ) (List.replicate 32 0)) = _
    rw [combinedBuffer_eq_append, List.nil_append]
    have h := decode_int16_replicate_zero 16
    norm_num at h
    exact h
  have hvad : process_with_vad (fun _ => true) (List.replicate 16 (0:ℤ))
      tinyParams.hallucinateThreshold tinySilentSession.sampleRate
      = [(List.replicate 16 (0:ℚ), 0, 1/1000)] := by
    rw [show tinyParams.hallucinateThreshold = 100 from rfl]
    rw [process_with_vad_silent (fun _ => true) 16 100 (by norm_num)]
    norm_num
  have hready2 : ¬ calculate_pcm_duration_bytes
      (((processReady (fun _ => []) (fun _ => true) tinySilentSession tinyParams
        (1/1000)).1).audioBuffer ++ [0, 0])
      ((processReady (fun _ => []) (fun _ => true) tinySilentSession tinyParams
        (1/1000)).1).sampleRate < tinyParams.targetBufferLength := by
    obtain ⟨hbuf, _, _, _, hrate⟩ := processReady_withhold_spec (fun _ => []) (fun _ => true)
      tinySilentSession tinyParams (1/1000) (List.replicate 16 (0:ℤ))
      (List.replicate 16 (0:ℚ)) 0 (1/1000) hdec (by decide) (by rw [hvad]; rfl)
    rw [hbuf, hrate, List.nil_append]
    show ¬ calculate_pcm_duration_bytes [0, 0] 16000 < tinyParams.targetBufferLength
    unfold calculate_pcm_duration_bytes
    norm_num [tinyParams]
  exact ⟨hdec, by decide,
    (C3_overlap_continuity (fun _ => []) (fun _ => true) tinySilentSession tinyParams
      tinyParams (1/1000) (List.replicate 16 (0:ℤ)) (List.replicate 16 (0:ℚ)) 0 (1/1000)
      [0, 0] hdec (by decide) (by rw [hvad]; rfl) (by decide) rfl (by decide) (by decide)
      hready2).2.2⟩

/-- A session holding one pending zero int16 sample (two bytes). -/
def pendingPairSession : Session :=
  { audioBuffer := [0, 0], sampleRate := 16000, processedLength := 0,
    accumulatedChunks := [], overlapBuffer := [], lastSegmentStartTime := 0,
    language := none }

/-- C4 (amended): a streaming call whose bytes give the combined buffer an odd
length (not a multiple of the int16 sample width) is NOT rejected on ingest:
the bytes are appended to the pending buffer; if the buffer has not reached
the target the call returns a normal "buffering" status — no format error at
all; once the buffer is ready, the int16 decode inside processing raises, the
call returns a generic error status, and the pending buffer has ALREADY been
cleared, so the appended audio is lost and the call is not safe to retry
(overlap buffer, processed duration and accumulated chunks are unchanged). -/
theorem C4_malformed_length (engine : List ℚ → List Chunk) (classify : List ℤ → Bool)
    (p : StreamParams) (s : Session) (bytes : List ℕ)
    (htask : p.taskId ≠ "") (hclear : p.clearCache = false)
    (hact : p.action ≠ "finish-task") (hne : bytes ≠ [])
    (hodd : (combinedBuffer s.overlapBuffer (s.audioBuffer ++ bytes)).length % 2 = 1) :
    (¬ calculate_pcm_duration_bytes (s.audioBuffer ++ bytes) s.sampleRate <
        p.targetBufferLength →
      streamStep engine classify (some s) p (some bytes) =
        (some { s with audioBuffer := [] },
         .error "buffer size must be a multiple of element size")) ∧
    (calculate_pcm_duration_bytes (s.audioBuffer ++ bytes) s.sampleRate <
        p.targetBufferLength →
      streamStep engine classify (some s) p (some bytes) =
        (some { s with audioBuffer := s.audioBuffer ++ bytes },
         .buffering (calculate_pcm_duration_bytes (s.audioBuffer ++ bytes) s.sampleRate))) := by
  constructor
  · intro hready
    rw [streamStep_some_audio engine classify p s bytes htask hclear hact hne]
    rw [if_neg hready]
    rw [processReady_decode_error engine classify _ p _
      (decode_int16_odd _ (by simpa using hodd))]
  · intro hnotready
    rw [streamStep_some_audio engine classify p s bytes htask hclear hact hne]
    rw [if_pos hnotready]

/-- Witness for C4's amended theorem: one zero sample pending, one stray byte
appended, target 0 so the buffer is ready; the call errors and the pending
bytes are gone. -/
theorem C4_malformed_length_witness :
    ((combinedBuffer pendingPairSession.overlapBuffer
        (pendingPairSession.audioBuffer ++ [5])).length % 2 = 1) ∧
    (¬ calculate_pcm_duration_bytes (pendingPairSession.audioBuffer ++ [5])
        pendingPairSession.sampleRate < tinyParams.targetBufferLength) ∧
    streamStep (fun _ => []) (fun _ => true) (some pendingPairSession) tinyParams
        (some [5]) =
      (some { pendingPairSession with audioBuffer := [] },
       .error "buffer size must be a multiple of element size") := by
  have hready : ¬ calculate_pcm_duration_bytes (pendingPairSession.audioBuffer ++ [5])
      pendingPairSession.sampleRate < tinyParams.targetBufferLength := by
    show ¬ calculate_pcm_duration_bytes ([0, 0, 5] : List ℕ) 16000 < _
    unfold calculate_pcm_duration_bytes
    norm_num [tinyParams]
  exact ⟨by decide, hready,
    (C4_malformed_length (fun _ => []) (fun _ => true) tinyParams pendingPairSession [5]
      (by decide) rfl (by decide) (by decide) (by decide)).1 hready⟩

/-- C4 (counterexample): the claim fails in both directions on the code.  A
call carrying a single stray byte onto a session holding one pending zero
sample (combined length 3, odd), with the buffer ready, returns an error but
CLEARS the pending buffer — the session is modified and the audio is lost, so
the call is not safe to retry; and the same malformed call against a larger
target returns plain "buffering" with no format error at all, silently
swallowing the malformed bytes. -/
theorem C4_counterexample :
    (streamStep (fun _ => []) (fun _ => true) (some pendingPairSession) tinyParams
        (some [5])).1 = some { pendingPairSession with audioBuffer := [] } ∧
    (({ pendingPairSession with audioBuffer := [] } : Session).audioBuffer ≠
      pendingPairSession.audioBuffer) ∧
    streamStep (fun _ => []) (fun _ => true) (some pendingPairSession)
        { tinyParams with targetBufferLength := 3 } (some [5]) =
      (some { pendingPairSession with audioBuffer := [0, 0, 5] },
       .buffering (1/16000)) := by
  have hready : ¬ calculate_pcm_duration_bytes (pendingPairSession.audioBuffer ++ [5])
      pendingPairSession.sampleRate < tinyParams.targetBufferLength := by
    show ¬ calculate_pcm_duration_bytes ([0, 0, 5] : List ℕ) 16000 < _
    unfold calculate_pcm_duration_bytes
    norm_num [tinyParams]
  refine ⟨?_, by decide, ?_⟩
  · rw [streamStep_some_audio (fun _ => []) (fun _ => true) tinyParams pendingPairSession
      [5] (by decide) rfl (by decide) (by decide)]
    rw [if_neg hready]
    rw [processReady_decode_error (fun _ => []) (fun _ => true) _ tinyParams _ (by decide)]
  · rw [streamStep_some_audio (fun _ => []) (fun _ => true)
      { tinyParams with targetBufferLength := 3 } pendingPairSession [5]
      (by decide) rfl (by decide) (by decide)]
    have hdur : calculate_pcm_duration_bytes (pendingPairSession.audioBuffer ++ [5])
        pendingPairSession.sampleRate = 1/16000 := by
      show calculate_pcm_duration_bytes ([0, 0, 5] : List ℕ) 16000 = _
      unfold calculate_pcm_duration_bytes
      norm_num
    rw [hdur]
    rw [if_pos (by norm_num [tinyParams])]
    rfl

/-- C5 (amended): a cache-clear request is honoured only when the session id
is KNOWN: then the session is deleted and "cache_cleared" returned, regardless
of any attached audio.  When the session id is unknown the clear flag is
silently ignored and the request falls through to normal processing: with no
audio attached the call FAILS with "First call must provide audio data" (state
unchanged); with audio attached a brand-new session is created and the audio
processed normally — either way, not the no-op success the claim states. -/
theorem C5_clear_cache (engine : List ℚ → List Chunk) (classify : List ℤ → Bool)
    (p : StreamParams) (htask : p.taskId ≠ "") (hclear : p.clearCache = true) :
    (∀ (s : Session) (audioData : Option (List ℕ)),
      streamStep engine classify (some s) p audioData = (none, .cacheCleared)) ∧
    streamStep engine classify none p none =
      (none, .error "First call must provide audio data") := by
  constructor
  · intro s audioData
    unfold streamStep
    rw [if_neg htask, if_pos (by simp [hclear])]
  · unfold streamStep
    rw [if_neg htask, if_neg (by simp)]

/-- Witness for C5's amended theorem at concrete parameters. -/
theorem C5_clear_cache_witness :
    (({ tinyParams with clearCache := true } : StreamParams).taskId ≠ "") ∧
    (({ tinyParams with clearCache := true } : StreamParams).clearCache = true) ∧
    streamStep (fun _ => []) (fun _ => true) (some tinySilentSession)
        { tinyParams with clearCache := true } none = (none, .cacheCleared) ∧
    streamStep (fun _ => []) (fun _ => true) none
        { tinyParams with clearCache := true } none =
      (none, .error "First call must provide audio data") := by
  have h := C5_clear_cache (fun _ => []) (fun _ => true)
    { tinyParams with clearCache := true } (by decide) rfl
  exact ⟨by decide, rfl, h.1 tinySilentSession none, h.2⟩

/-- C5 (counterexample): a cache-clear on an UNKNOWN session id does not
succeed as a no-op.  With no audio attached the call fails with an error
status (not "cache_cleared", not any success), and with audio attached it
creates a brand-new session — the session store is modified. -/
theorem C5_counterexample :
    streamStep (fun _ => []) (fun _ => true) none
        { tinyParams with clearCache := true, targetBufferLength := 3 } none =
      (none, .error "First call must provide audio data") ∧
    (StreamResult.error "First call must provide audio data" ≠ .cacheCleared) ∧
    (streamStep (fun _ => []) (fun _ => true) none
        { tinyParams with clearCache := true, targetBufferLength := 3 }
        (some [0, 0])).1 ≠ (none : Option Session) := by
  refine ⟨?_, by decide, ?_⟩
  · unfold streamStep
    rw [if_neg (by decide), if_neg (by simp)]
  · rw [streamStep_none_audio (fun _ => []) (fun _ => true)
      { tinyParams with clearCache := true, targetBufferLength := 3 } [0, 0]
      (by decide)]
    have hdur : calculate_pcm_duration_bytes ([0, 0] : List ℕ)
        ({ tinyParams with clearCache := true, targetBufferLength := 3 } :
          StreamParams).sampleRate = 1/16000 := by
      unfold calculate_pcm_duration_bytes
      norm_num [tinyParams]
    rw [hdur]
    rw [if_pos ⟨by norm_num [tinyParams], by decide⟩]
    simp

/-- C6 (amended): for every input buffer and classifier, when the
configuration satisfies `padding_frames < min_silence_frames` (true of the
default: 13 < 16) and the buffer is non-empty, the segments returned by
`segment_audio` — the whole-buffer fallback included — are ordered and
pairwise non-overlapping (each end time ≤ the next start time) and every
segment has `start < end`.  For configurations with
`padding_frames ≥ min_silence_frames` the pre-roll padding can overlap the
previously emitted segment, and on an empty buffer the fallback segment is
`(0, 0)`; both cases are exhibited in the counterexample. -/
theorem C6_segment_order (classify : List ℤ → Bool) (cfg : VadCfg)
    (hpad : cfg.padFrames < cfg.minSilenceFrames) (hrate : 0 < cfg.sampleRate)
    (samples : List ℤ) (hne : samples ≠ []) :
    List.Chain' (fun a b : List ℚ × ℚ × ℚ => a.2.2 ≤ b.2.1)
      (segment_audio classify cfg samples) ∧
    ∀ s ∈ segment_audio classify cfg samples, s.2.1 < s.2.2 := by
  obtain ⟨hlt, hchain⟩ := vadSegs_sorted cfg hpad (frameFlags classify cfg samples)
  simp only [segment_audio]
  by_cases hempty : vadSegs cfg (frameFlags classify cfg samples) = []
  · rw [hempty]
    simp only [List.map_nil, eq_self_iff_true, if_true]
    refine ⟨List.chain'_singleton _, ?_⟩
    intro s hs
    simp only [List.mem_singleton] at hs
    subst hs
    dsimp only
    refine div_pos ?_ (by exact_mod_cast hrate)
    exact_mod_cast List.length_pos.mpr hne
  · rw [if_neg (by simpa using hempty)]
    constructor
    · rw [List.chain'_map]
      exact hchain.imp (fun a b hab => frameTime_mono hab)
    · intro s hs
      obtain ⟨p, hp, rfl⟩ := List.mem_map.mp hs
      exact frameTime_strictMono (hlt p hp)

/-- Witness for C6's amended theorem: a one-sample buffer under the default
configuration. -/
theorem C6_segment_order_witness :
    ((defaultVadCfg 16000).padFrames < (defaultVadCfg 16000).minSilenceFrames ∧
     0 < (defaultVadCfg 16000).sampleRate ∧ (([0] : List ℤ) ≠ [])) ∧
    (List.Chain' (fun a b : List ℚ × ℚ × ℚ => a.2.2 ≤ b.2.1)
        (segment_audio (fun _ => true) (defaultVadCfg 16000) [0]) ∧
     ∀ s ∈ segment_audio (fun _ => true) (defaultVadCfg 16000) [0],
       s.2.1 < s.2.2) := by
  exact ⟨⟨by decide, by decide, by decide⟩,
    C6_segment_order (fun _ => true) (defaultVadCfg 16000) (by decide) (by decide)
      [0] (by decide)⟩

/-- C6 (counterexample): the property does not hold for every `VadConfig` and
every buffer.  With `min_speech_frames = 1`, `min_silence_frames = 2`,
`speech_pad_frames = 5` (constructor arguments 30 ms / 60 ms / 150 ms),
`vad_frame_size = 1`, and a buffer whose frames classify as `T F F T`, the
automaton emits
`(0,1)` and then — via pre-roll padding from raw frame index 3 — `(0,4)`,
which overlaps the first segment (start time 0 s < previous end time 0.03 s);
and on an empty buffer the fallback segment has `start = end = 0`. -/
theorem C6_counterexample :
    (vadSegs (VadCfg.mk 16000 1 1 2 5)
        (frameFlags (fun f => decide (f.headD 0 = 1)) (VadCfg.mk 16000 1 1 2 5)
          [1, 0, 0, 1])
        = [(0, 1), (0, 4)] ∧
     ¬ ((1 : ℕ) ≤ 0) ∧
     ¬ (frameTime 1 ≤ frameTime 0)) ∧
    (∃ s ∈ segment_audio (fun _ => true) (defaultVadCfg 16000) ([] : List ℤ),
       ¬ s.2.1 < s.2.2) := by
  refine ⟨⟨by decide, by decide, ?_⟩, ?_⟩
  · simp only [frameTime, FRAME_DURATION_MS]
    norm_num
  · have hseg : segment_audio (fun _ => true) (defaultVadCfg 16000) ([] : List ℤ)
        = [([], 0, 0)] := by
      simp [segment_audio, frameFlags, vadSegs, vadLoop, initVadState,
        transfer_audiodata_to_float]
    rw [hseg]
    exact ⟨([], 0, 0), by simp, by norm_num⟩

/-- C7 (amended): every speech segment emitted by the VAD state machine —
the whole-buffer fallback excepted — spans at least `min_speech_frames`
frames, i.e. lasts at least `min_speech_frames × 30 ms`.  With the default
configuration `min_speech_frames = int(250 ms / 30 ms) = 8`, so the guaranteed
minimum is 240 ms, not the 250 ms the claim states. -/
theorem C7_min_segment_duration (cfg : VadCfg) (flags : List Bool) :
    ∀ p ∈ vadSegs cfg flags,
      p.1 + cfg.minSpeechFrames ≤ p.2 ∧
      (cfg.minSpeechFrames : ℚ) * (3/100) ≤ frameTime p.2 - frameTime p.1 := by
  intro p hp
  have h := vadSegs_min_duration cfg flags p hp
  refine ⟨h, ?_⟩
  have hc : (p.1 : ℚ) + (cfg.minSpeechFrames : ℚ) ≤ (p.2 : ℚ) := by exact_mod_cast h
  simp only [frameTime, FRAME_DURATION_MS]
  push_cast
  linarith

/-- Witness for C7's amended theorem: the 240 ms segment `(0, 8)` produced by
8 speech frames followed by 16 silent frames under the default configuration. -/
theorem C7_min_segment_duration_witness :
    (((0, 8) : ℕ × ℕ) ∈
      vadSegs (defaultVadCfg 16000) (List.replicate 8 true ++ List.replicate 16 false)) ∧
    ((0 : ℕ) + (defaultVadCfg 16000).minSpeechFrames ≤ 8 ∧
      ((defaultVadCfg 16000).minSpeechFrames : ℚ) * (3/100) ≤ frameTime 8 - frameTime 0) := by
  have hm : (((0, 8) : ℕ × ℕ) ∈
      vadSegs (defaultVadCfg 16000) (List.replicate 8 true ++ List.replicate 16 false)) := by
    decide
  exact ⟨hm, C7_min_segment_duration _ _ _ hm⟩

/-- C7 (counterexample): under the default configuration, 8 speech-classified
frames at the buffer start followed by 16 silent frames make the automaton
emit exactly the (non-fallback) segment `(0, 8)`, of duration
`8 × 30 ms = 0.24 s`, which is less than the claimed 250 ms minimum. -/
theorem C7_counterexample :
    vadSegs (defaultVadCfg 16000) (List.replicate 8 true ++ List.replicate 16 false)
        = [(0, 8)] ∧
    frameTime 8 - frameTime 0 = 6/25 ∧
    ¬ ((1/4 : ℚ) ≤ 6/25) := by
  refine ⟨by decide, ?_, by norm_num⟩
  simp only [frameTime, FRAME_DURATION_MS]
  norm_num

/-- C10: for every transcript timestamp, the rendered caption time wraps
modulo 24 hours: `format_timedelta` derives hours from the timedelta's
seconds-within-day component and ignores whole days, so adding any whole
number of days leaves the rendered `HH:MM:SS,mmm` unchanged; concretely a
25-hour (90000 s) timestamp renders as `01:00:00,000`, not `25:00:00,000`. -/
theorem C10_format_timedelta_wraps_mod_day :
    (∀ (q : ℚ) (n : ℕ), format_timedelta (q + 86400 * n) = format_timedelta q) ∧
    format_timedelta 90000 = "01:00:00,000" ∧
    format_timedelta 90000 ≠ "25:00:00,000" := by
  refine ⟨format_timedelta_add_days, ?_, ?_⟩ <;>
    · simp only [format_timedelta, timedeltaDayUs_90000]
      decide

theorem fileTimelineGo_chain (timeOffset lastChunkEnd : ℚ) (cs : List Chunk)
    (h : ∀ c ∈ cs, 0 ≤ c.startTs) (x : ℚ × ℚ) (hx : x.2 = lastChunkEnd + timeOffset) :
    List.Chain (fun a b : ℚ × ℚ => a.2 - 1/2 ≤ b.1) x
      (fileTimelineGo timeOffset lastChunkEnd cs) := by
  induction cs generalizing timeOffset lastChunkEnd x with
  | nil => exact List.Chain.nil
  | cons c rest ih =>
    have hc : 0 ≤ c.startTs := h c (by simp)
    have hrest : ∀ c' ∈ rest, 0 ≤ c'.startTs := fun c' hc' => h c' (by simp [hc'])
    by_cases hr : c.startTs < lastChunkEnd - 1/2
    · simp only [fileTimelineGo, if_pos hr]
      refine List.Chain.cons (by rw [hx]; linarith) ?_
      exact ih (timeOffset + lastChunkEnd) c.endTs hrest _ (by ring)
    · simp only [fileTimelineGo, if_neg hr]
      refine List.Chain.cons (by rw [hx]; linarith [not_lt.mp hr]) ?_
      exact ih timeOffset c.endTs hrest _ (by ring)

/-- C9 (amended): in single-shot mode the accumulating offset is increased by
the previous chunk's RELATIVE end (`time_offset += last_chunk_end` where
`last_chunk_end = chunk.end_ts`), not its absolute end; and provided the
engine's relative start timestamps are nonnegative, the output timeline is
monotone only up to the 0.5 s tolerance: each output start is at least the
previous output end minus 0.5 s (strict monotonicity can fail within the
tolerance). -/
theorem C9_file_timeline_tolerant_monotonicity (cs : List Chunk)
    (h : ∀ c ∈ cs, 0 ≤ c.startTs) :
    List.Chain' (fun a b : ℚ × ℚ => a.2 - 1/2 ≤ b.1) (fileTimeline cs) := by
  have hchain := fileTimelineGo_chain 0 0 cs h (0, 0) (by norm_num)
  have : List.Chain' (fun a b : ℚ × ℚ => a.2 - 1/2 ≤ b.1) ((0, 0) :: fileTimeline cs) :=
    hchain
  exact this.tail

/-- Witness for C9's amended theorem at a concrete chunk list. -/
theorem C9_file_timeline_tolerant_monotonicity_witness :
    (∀ c ∈ [Chunk.mk "a" 0 1, Chunk.mk "b" 2 3], 0 ≤ c.startTs) ∧
    List.Chain' (fun a b : ℚ × ℚ => a.2 - 1/2 ≤ b.1)
      (fileTimeline [Chunk.mk "a" 0 1, Chunk.mk "b" 2 3]) := by
  refine ⟨?_, C9_file_timeline_tolerant_monotonicity _ ?_⟩ <;>
    · intro c hc
      simp only [List.mem_cons, List.mem_singleton] at hc
      rcases hc with rfl | hc
      · norm_num
      · rcases hc with rfl | h
        · norm_num
        · simp at h

/-- C9 (counterexample): on chunks `(0,10), (0,5), (0,3)` the code produces
absolute pairs `(0,10), (10,15), (15,18)` — at the second clock reset the
offset grows by the previous chunk's relative end `5` (to `15`), not by its
absolute end `15` (which would give offset `25` and a third start of `25`);
and on chunks `(5, 5.2), (4.8, 5.5)` (a backward step inside the 0.5 s
tolerance) the output starts are `5` then `4.8`, so the output timeline is not
monotonic. -/
theorem C9_counterexample :
    fileTimeline [Chunk.mk "a" 0 10, Chunk.mk "b" 0 5, Chunk.mk "c" 0 3]
      = [(0, 10), (10, 15), (15, 18)] ∧
    ((15 : ℚ) ≠ 0 + 25) ∧
    fileTimeline [Chunk.mk "d" 5 (26/5), Chunk.mk "e" (24/5) (11/2)]
      = [(5, 26/5), (24/5, 11/2)] ∧
    ¬ ((5 : ℚ) ≤ 24/5) := by
  refine ⟨?_, by norm_num, ?_, by norm_num⟩ <;>
    norm_num [fileTimeline, fileTimelineGo]

/-- C8 (amended): in every streaming round each transcript chunk's absolute
timestamps are
`processed_duration_before_round + configured_time_offset + segment.start +
chunk.relative_start/end` (both ends shifted by the same `abs_start`); but the
finalize path (`_pipeline_finalizer`) does NOT use the same formula: it adds
neither `processed_duration` nor the configured time offset, and it shifts the
chunk's relative end by `segment.end` rather than `segment.start`. -/
theorem C8_round_timestamp_formula :
    (∀ (engine : List ℚ → List Chunk) (pb off : ℚ) (segs : List (List ℚ × ℚ × ℚ))
       (ch : Chunk), ch ∈ roundChunks engine pb off segs →
       ∃ seg ∈ segs, ∃ c ∈ engine seg.1,
         ch = Chunk.mk c.text (c.startTs + (pb + off + seg.2.1))
                (c.endTs + (pb + off + seg.2.1))) ∧
    (∀ (engine : List ℚ → List Chunk) (segs : List (List ℚ × ℚ × ℚ))
       (ch : Chunk), ch ∈ finalChunks engine segs →
       ∃ seg ∈ segs, ∃ c ∈ engine seg.1,
         ch = Chunk.mk c.text (c.startTs + seg.2.1) (c.endTs + seg.2.2)) := by
  constructor
  · intro engine pb off segs
    induction segs with
    | nil => intro ch hch; simp [roundChunks] at hch
    | cons seg rest ih =>
      obtain ⟨a, s, e⟩ := seg
      intro ch hch
      rcases List.mem_append.mp hch with hl | hr
      · obtain ⟨c, hc, rfl⟩ := List.mem_map.mp hl
        exact ⟨(a, s, e), by simp, c, hc, rfl⟩
      · obtain ⟨seg', hseg', c, hc, hch'⟩ := ih ch hr
        exact ⟨seg', by simp [hseg'], c, hc, hch'⟩
  · intro engine segs
    induction segs with
    | nil => intro ch hch; simp [finalChunks] at hch
    | cons seg rest ih =>
      obtain ⟨a, s, e⟩ := seg
      intro ch hch
      rcases List.mem_append.mp hch with hl | hr
      · obtain ⟨c, hc, rfl⟩ := List.mem_map.mp hl
        exact ⟨(a, s, e), by simp, c, hc, rfl⟩
      · obtain ⟨seg', hseg', c, hc, hch'⟩ := ih ch hr
        exact ⟨seg', by simp [hseg'], c, hc, hch'⟩

/-- Witness for C8's amended theorem: a concrete streaming-round chunk. -/
theorem C8_round_timestamp_formula_witness :
    (Chunk.mk "x" 14 15 ∈
       roundChunks (fun _ => [Chunk.mk "x" 0 1]) 5 7 [([], 2, 3)]) ∧
    (∃ seg ∈ [(([] : List ℚ), (2 : ℚ), (3 : ℚ))],
       ∃ c ∈ (fun (_ : List ℚ) => [Chunk.mk "x" 0 1]) seg.1,
         Chunk.mk "x" 14 15 = Chunk.mk c.text (c.startTs + (5 + 7 + seg.2.1))
           (c.endTs + (5 + 7 + seg.2.1))) := by
  have hm : Chunk.mk "x" 14 15 ∈
      roundChunks (fun _ => [Chunk.mk "x" 0 1]) 5 7 [([], 2, 3)] := by
    norm_num [roundChunks, adjustChunk]
  exact ⟨hm, C8_round_timestamp_formula.1 _ 5 7 _ _ hm⟩

/-- C8 (counterexample): the finalize path does not follow the streaming
formula.  With a session whose `processed_duration_before_round` and configured
time offset are both `0`, a segment spanning `(1, 2)` and an engine chunk with
relative times `(0, 1/2)`, `_pipeline_finalizer` produces the absolute end
`1/2 + 2 = 5/2`, while the claimed formula gives `0 + 0 + 1 + 1/2 = 3/2`. -/
theorem C8_counterexample :
    finalChunks (fun _ => [Chunk.mk "x" 0 (1/2)]) [([], 1, 2)]
      = [Chunk.mk "x" 1 (5/2)] ∧
    ((5 : ℚ)/2 ≠ 0 + 0 + 1 + 1/2) := by
  constructor
  · norm_num [finalChunks]
  · norm_num

end Whisper
